import Mathlib

/-!
Shallow embedding of the container-retention-policy core
(src/main/main.py, src/main/utils.py, src/main/api.py, src/main/models.py).

Machine datetimes are modelled as `Int` (an ordered timestamp value); the
wall-clock quantities of the rate limiter, which carry sub-second precision,
are modelled as `ℚ`.  Fallible observations (a missing timestamp field) are
`Option` values, mirroring the pydantic `Optional` fields of models.py.
-/

namespace CRP

/-! ### Shell-style glob matching (Python fnmatch, posix case-sensitive) -/

/-- One compiled unit of a shell glob pattern, mirroring what
`fnmatch.translate` turns each pattern element into. -/
inductive GlobToken where
  | lit (c : Char)
  | anyChar
  | star
  | charSet (neg : Bool) (content : List Char)
deriving DecidableEq, Repr

/-- Scan forward for the closing bracket of a character class, returning the
class body and the remainder of the pattern. -/
def findCloseBracket : List Char → Option (List Char × List Char)
  | [] => none
  | c :: rest =>
    if c = ']' then some ([], rest)
    else (findCloseBracket rest).map fun p => (c :: p.1, p.2)

theorem findCloseBracket_length (cs : List Char) :
    ∀ content rest, findCloseBracket cs = some (content, rest) →
      rest.length < cs.length := by
  induction cs with
  | nil => intro content rest h; simp [findCloseBracket] at h
  | cons c cs ih =>
    intro content rest h
    simp only [findCloseBracket] at h
    split at h
    · cases h
      simp only [List.length_cons]
      omega
    · cases hfc : findCloseBracket cs with
      | none => rw [hfc] at h; simp at h
      | some p =>
        rw [hfc] at h
        simp only [Option.map_some'] at h
        cases h
        exact Nat.lt_trans (ih p.1 p.2 (by rw [hfc])) (Nat.lt_succ_self _)

theorem tail_length_le (l : List Char) : l.tail.length ≤ l.length := by
  cases l <;> simp

/-- fnmatch.translate: a leading negation mark after the opening bracket. -/
def setNeg (cs : List Char) : Bool := cs.head? == some '!'

/-- The class chars after the optional negation mark. -/
def setAfterNeg (cs : List Char) : List Char := if setNeg cs then cs.tail else cs

/-- fnmatch.translate: a closing bracket right after `[` or `[!` is a literal
member of the class body. -/
def setLitBr (cs : List Char) : Bool := (setAfterNeg cs).head? == some ']'

/-- The chars scanned for the real closing bracket. -/
def setBody (cs : List Char) : List Char :=
  if setLitBr cs then (setAfterNeg cs).tail else setAfterNeg cs

theorem setAfterNeg_length (cs : List Char) : (setAfterNeg cs).length ≤ cs.length := by
  unfold setAfterNeg
  split
  · exact tail_length_le cs
  · exact le_refl _

theorem setBody_length (cs : List Char) : (setBody cs).length ≤ cs.length := by
  unfold setBody
  split
  · exact le_trans (tail_length_le _) (setAfterNeg_length cs)
  · exact setAfterNeg_length cs

/-- Extract a bracketed character class, following fnmatch.translate: an
optional leading negation mark, then an optional literal closing bracket that
belongs to the class body, then a scan for the real closing bracket.  Returns
`none` when the class is unterminated (the opening bracket is then literal). -/
def extractSet (cs : List Char) : Option (Bool × List Char × List Char) :=
  match findCloseBracket (setBody cs) with
  | none => none
  | some p => some (setNeg cs, (if setLitBr cs then ']' :: p.1 else p.1), p.2)

theorem extractSet_length (cs : List Char) (neg : Bool)
    (content rest : List Char) (h : extractSet cs = some (neg, content, rest)) :
    rest.length < cs.length := by
  unfold extractSet at h
  cases hfc : findCloseBracket (setBody cs) with
  | none => rw [hfc] at h; simp at h
  | some p =>
    rw [hfc] at h
    simp only [Option.some.injEq, Prod.mk.injEq] at h
    obtain ⟨-, -, hr⟩ := h
    rw [← hr]
    exact lt_of_lt_of_le (findCloseBracket_length _ p.1 p.2 (by rw [hfc]))
      (setBody_length cs)

/-- Compile a glob pattern into tokens, following fnmatch.translate.  The
recursion is driven by a character-count fuel so that it reduces inside the
kernel; every step consumes at least one pattern character
(`extractSet_length`), so `cs.length` fuel is always enough. -/
def compileGlobFuel : Nat → List Char → List GlobToken
  | 0, _ => []
  | fuel + 1, cs =>
    match cs with
    | [] => []
    | c :: rest =>
      if c = '*' then .star :: compileGlobFuel fuel rest
      else if c = '?' then .anyChar :: compileGlobFuel fuel rest
      else if c = '[' then
        match extractSet rest with
        | some (neg, content, rest2) =>
            .charSet neg content :: compileGlobFuel fuel rest2
        | none => .lit '[' :: compileGlobFuel fuel rest
      else .lit c :: compileGlobFuel fuel rest

def compileGlob (cs : List Char) : List GlobToken := compileGlobFuel cs.length cs

/-- Character-class membership with ranges, as in a regex class body. -/
def matchSet : List Char → Char → Bool
  | [], _ => false
  | a :: b :: d :: rest2, c =>
    if b = '-' then ((a.val ≤ c.val && c.val ≤ d.val) || matchSet rest2 c)
    else ((a == c) || matchSet (b :: d :: rest2) c)
  | a :: rest, c => (a == c) || matchSet rest c

/-- Match compiled glob tokens against a character list; `star` matches any
run of characters (the translated regex runs in dot-all mode).  Fuel-driven
for kernel reducibility: each step lowers `ts.length + cs.length`, so
`ts.length + cs.length + 1` fuel is always enough. -/
def matchTokensFuel : Nat → List GlobToken → List Char → Bool
  | 0, _, _ => false
  | fuel + 1, ts, cs =>
    match ts, cs with
    | [], [] => true
    | [], _ :: _ => false
    | .lit _ :: _, [] => false
    | .lit p :: ts, c :: cs => (p == c) && matchTokensFuel fuel ts cs
    | .anyChar :: _, [] => false
    | .anyChar :: ts, _ :: cs => matchTokensFuel fuel ts cs
    | .charSet _ _ :: _, [] => false
    | .charSet neg content :: ts, c :: cs =>
        (matchSet content c != neg) && matchTokensFuel fuel ts cs
    | .star :: ts, [] => matchTokensFuel fuel ts []
    | .star :: ts, c :: cs =>
        matchTokensFuel fuel ts (c :: cs) || matchTokensFuel fuel (.star :: ts) cs

def matchTokens (ts : List GlobToken) (cs : List Char) : Bool :=
  matchTokensFuel (ts.length + cs.length + 1) ts cs

/-- Python fnmatch(name, pattern) from the standard library, as used at
main.py lines 81 and 86 (posix: no case normalisation). -/
def fnmatch (nm pat : String) : Bool :=
  matchTokens (compileGlob pat.data) nm.data

/-! ### Data model (src/main/models.py) -/

/-- models.py `TimestampType`: which version timestamp the cut-off compares
against. -/
inductive TimestampType where
  | updated_at
  | created_at
deriving DecidableEq, Repr

/-- models.py `PackageVersionResponse`, with `metadata.container.tags`
flattened into `tags` (pydantic guarantees the metadata chain is present). -/
structure PackageVersion where
  id : Nat
  name : String
  tags : List String
  created_at : Option Int
  updated_at : Option Int
deriving DecidableEq, Repr

/-- models.py `Inputs`, restricted to the fields the retention filter reads.
`keep_at_least` is a `Nat` because the pydantic field carries `ge=0`. -/
structure Inputs where
  cut_off : Int
  timestamp_to_use : TimestampType
  untagged_only : Bool
  skip_tags : List String
  keep_at_least : Nat
  filter_tags : List String
  filter_include_untagged : Bool
deriving DecidableEq, Repr

/-- main.py line 45: `getattr(version, inputs.timestamp_to_use.value)`.
A `datetime` is always truthy in Python, so the falsiness test at line 47
is exactly the `none` case. -/
def getTimestamp (inputs : Inputs) (v : PackageVersion) : Option Int :=
  match inputs.timestamp_to_use with
  | .updated_at => v.updated_at
  | .created_at => v.created_at

/-! ### Retention filter (main.py, select_package_versions_to_delete) -/

/-- main.py lines 75-83: `delete_image` starts true iff `filter_tags` is
empty, and each filter pattern that glob-matches some tag sets it true
(the loop breaks on first success, which is `List.any`). -/
def filterTagsAllow (inputs : Inputs) (image_tags : List String) : Bool :=
  inputs.filter_tags.isEmpty ||
    inputs.filter_tags.any fun ft => image_tags.any fun tag => fnmatch tag ft

/-- main.py lines 85-88: a skip pattern matching any tag forces
`delete_image` to false. -/
def skipTagsMatch (inputs : Inputs) (image_tags : List String) : Bool :=
  inputs.skip_tags.any fun st => image_tags.any fun tag => fnmatch tag st

/-- Outcome of the tag-policy segment of the loop body (main.py lines
66-101): `skipNoCount` is a `continue` before the index increment at line
103; `counted d` reaches line 103, scheduling a deletion iff `d`. -/
inductive TagOutcome where
  | skipNoCount
  | counted (delete : Bool)
deriving DecidableEq, Repr

/-- main.py lines 66-89: the tag policy applied to an in-window version. -/
def tagPolicy (inputs : Inputs) (image_tags : List String) : TagOutcome :=
  if inputs.untagged_only && !image_tags.isEmpty then .skipNoCount
  else if image_tags.isEmpty && !inputs.filter_include_untagged then .skipNoCount
  else
    let d := filterTagsAllow inputs image_tags
    let d := if skipTagsMatch inputs image_tags then false else d
    .counted d

/-- main.py lines 31-105, the loop of `select_package_versions_to_delete`.
Line 41 is the Python chained comparison
`0 < inputs.keep_at_least == index`, i.e. the conjunction
`0 < keep_at_least ∧ keep_at_least = index`; `index` (line 103) increments
only in iterations that reach the end of the loop body without `continue`. -/
def selectLoop (inputs : Inputs) : Nat → List PackageVersion → List PackageVersion
  | _, [] => []
  | index, v :: rest =>
    if 0 < inputs.keep_at_least ∧ inputs.keep_at_least = index then
      selectLoop inputs index rest
    else
      match getTimestamp inputs v with
      | none => selectLoop inputs index rest
      | some ts =>
        if inputs.cut_off < ts then selectLoop inputs index rest
        else
          match tagPolicy inputs v.tags with
          | .skipNoCount => selectLoop inputs index rest
          | .counted d =>
            if d then v :: selectLoop inputs (index + 1) rest
            else selectLoop inputs (index + 1) rest

/-- main.py `select_package_versions_to_delete`: the versions for which a
deletion task is created, in traversal order (`index = 0`, `tasks = []`). -/
def select_package_versions_to_delete (inputs : Inputs)
    (versions : List PackageVersion) : List PackageVersion :=
  selectLoop inputs 0 versions


/-! ### Rate limiter (utils.py, wait_for_rate_limit) -/

/-- main.py line 27: `MAX_SLEEP = 60 * 10`. -/
def MAX_SLEEP : ℚ := 60 * 10

/-- What `wait_for_rate_limit` does to its calling task: terminate the whole
process via `exit`, suspend for a number of seconds, or return at once. -/
inductive RateLimitAction where
  | terminate (code : Nat)
  | sleepFor (seconds : ℚ)
  | proceed
deriving DecidableEq, Repr

/-- utils.py lines 15-38, `wait_for_rate_limit`.  `remaining` is the parsed
`x-ratelimit-remaining` header, `ratelimit_reset` the parsed
`x-ratelimit-reset` epoch and `now` the current wall clock, both in seconds
(`ℚ`, since `datetime.now()` carries sub-second precision). -/
def wait_for_rate_limit (remaining : Int) (ratelimit_reset now : ℚ)
    (eligible_for_secondary_limit : Bool) : RateLimitAction :=
  if remaining = 0 then
    let delta := ratelimit_reset - now
    if delta > MAX_SLEEP then .terminate 1
    else if delta > 0 then .sleepFor delta
    else .proceed
  else if eligible_for_secondary_limit then .sleepFor 1
  else .proceed

/-! ### Outcome classification (utils.py, post_deletion_output) -/

/-- main.py lines 20-24. -/
def GITHUB_ASSISTANCE_MSG : String :=
  "Publicly visible package versions with more than 5000 downloads cannot be deleted. Contact GitHub support for further assistance."

/-- The three run-wide outcome lists declared at main.py lines 16-18. -/
structure DeletionState where
  deleted : List String
  failed : List String
  needs_github_assistance : List String
deriving DecidableEq, Repr

/-- The lists at process start. -/
def emptyState : DeletionState := ⟨[], [], []⟩

/-- httpx `Response.is_error`: a 4xx or 5xx status code. -/
def isErrorStatus (status : Nat) : Bool := 400 ≤ status && status ≤ 599

/-- utils.py lines 64-81, `post_deletion_output`, as a transformer of the
run-wide lists.  The response is abstracted to its status code and the
`message` field of its parsed JSON body. -/
def post_deletion_output (st : DeletionState) (status : Nat) (message : String)
    (image_name : String) (version_id : Nat) : DeletionState :=
  let image_name_with_tag := image_name ++ ":" ++ toString version_id
  if isErrorStatus status then
    if status == 400 && message == GITHUB_ASSISTANCE_MSG then
      { st with needs_github_assistance :=
          st.needs_github_assistance ++ [image_name_with_tag] }
    else
      { st with failed := st.failed ++ [image_name_with_tag] }
  else
    { st with deleted := st.deleted ++ [image_name_with_tag] }

/-! ### The delete call (api.py, _delete_package_versions) -/

/-- The observable outcome of `http_client.delete(url)` inside
`_delete_package_versions`: either the transport raised `TimeoutException`,
or a response arrived, abstracted to its status code and JSON message. -/
inductive DeleteCallResult where
  | timeout
  | response (status : Nat) (message : String)
deriving DecidableEq, Repr

/-- api.py lines 47-54, `_delete_package_versions`, as a transformer of the
run-wide outcome lists: a response is classified by `post_deletion_output`;
a `TimeoutException` is caught, a warning is printed, and the coroutine
returns normally (totality of this function is that normal return) with the
lists untouched.  The `async with semaphore` around the body is modelled by
`SchedState` below; the `wait_for_rate_limit` call only suspends. -/
def _delete_package_versions (st : DeletionState) (r : DeleteCallResult)
    (image_name : String) (version_id : Nat) : DeletionState :=
  match r with
  | .timeout => st
  | .response status message =>
      post_deletion_output st status message image_name version_id

/-! ### Paginator (utils.py, get_all_pages) -/

/-- One page fetch as `get_all_pages` observes it: the response status, the
parsed JSON item list (items abstracted to ids), and the raw `link` header,
absent when the server sent none. -/
structure PageResponse where
  status : Nat
  items : List Nat
  linkHeader : Option String
deriving Repr

/-- httpx success statuses (2xx); `raise_for_status` raises for the rest. -/
def isSuccessStatus (status : Nat) : Bool := 200 ≤ status && status ≤ 299

/-- The word-char class of the link-relation regex. -/
def isWordChar (c : Char) : Bool :=
  ('a' ≤ c && c ≤ 'z') || ('A' ≤ c && c ≤ 'Z') || ('0' ≤ c && c ≤ '9') || c = '_'

/-- Scan the url chars of one link (no angle brackets), up to the closing
angle bracket. -/
def scanUrl : List Char → Option (List Char × List Char)
  | [] => none
  | c :: rest =>
    if c = '>' then some ([], rest)
    else if c = '<' then none
    else (scanUrl rest).map fun p => (c :: p.1, p.2)

/-- The maximal `\w*` prefix and the remainder. -/
def scanWord : List Char → List Char × List Char
  | [] => ([], [])
  | c :: rest =>
    if isWordChar c then
      let p := scanWord rest
      (c :: p.1, p.2)
    else ([], c :: rest)

/-- Try the regex `<([^<>]*)>; rel="(\w+)"` anchored at the current
position, returning the two captures and the remainder after the match. -/
def tryLink : List Char → Option (String × String × List Char)
  | [] => none
  | c :: rest =>
    if c = '<' then
      match scanUrl rest with
      | none => none
      | some (url, rest2) =>
        match rest2 with
        | ';' :: ' ' :: 'r' :: 'e' :: 'l' :: '=' :: '"' :: rest3 =>
          match scanWord rest3 with
          | ([], _) => none
          | (w, rest4) =>
            match rest4 with
            | '"' :: rest5 => some (String.mk url, String.mk w, rest5)
            | _ => none
        | _ => none
    else none

/-- The findall of rel_regex (utils.py line 49): non-overlapping left-to-right
matches, each a `(url, rel)` capture pair.  Fuel-driven (one char of fuel per
scan position; a successful match always consumes more). -/
def findLinks : Nat → List Char → List (String × String)
  | 0, _ => []
  | fuel + 1, cs =>
    match tryLink cs with
    | some (url, rel, rest) => (url, rel) :: findLinks fuel rest
    | none =>
      match cs with
      | [] => []
      | _ :: t => findLinks fuel t

/-- The `(url, rel)` pairs found in a link header string. -/
def parseLinkRels (h : String) : List (String × String) :=
  findLinks h.data.length h.data

/-- utils.py line 59: `rels = {rel: url for url, rel in findall}` followed by
a lookup.  In the dict comprehension a later pair overwrites an earlier one
with the same relation name, hence the reversed search. -/
def relLookup (pairs : List (String × String)) (rel : String) : Option String :=
  (pairs.reverse.find? fun p => p.2 == rel).map fun p => p.1

/-- How a `get_all_pages` traversal ends: the generator returns (no `next`
relation parsed), `raise_for_status` raises an `HTTPStatusError`, the
`response.headers[\x27link\x27]` lookup raises a `KeyError`, or the modelling
fuel ran out (never reached with enough fuel). -/
inductive PageTerminal where
  | done
  | httpError (status : Nat)
  | keyError
  | fuelOut
deriving DecidableEq, Repr

/-- utils.py lines 41-61, `get_all_pages`: the generator is modelled as the
list of items it yields together with how it finishes.  Each round fetches
`rels[\x27next\x27]`, raises for a non-success status before yielding, yields the
page items, then unconditionally reads the `link` header; the loop continues
only when the parsed relations contain `next`. -/
def get_all_pages (server : String → PageResponse) :
    Nat → String → List Nat × PageTerminal
  | 0, _ => ([], .fuelOut)
  | fuel + 1, url =>
    let response := server url
    if !isSuccessStatus response.status then ([], .httpError response.status)
    else
      match response.linkHeader with
      | none => (response.items, .keyError)
      | some h =>
        match relLookup (parseLinkRels h) "next" with
        | none => (response.items, .done)
        | some nextUrl =>
          let p := get_all_pages server fuel nextUrl
          (response.items ++ p.1, p.2)

/-! ### Deletion concurrency (main.py line 166, api.py line 48) -/

/-- Abstract state of the run's deletion scheduling: `waiting` delete tasks
created but not yet holding a permit, `value` free permits of the
process-wide `Semaphore(50)` created at main.py line 166, `inFlight` tasks
inside the `async with semaphore` region of `_delete_package_versions`
(where the HTTP delete call is issued), `finished` tasks that have released
their permit. -/
structure SchedState where
  waiting : Nat
  value : Nat
  inFlight : Nat
  finished : Nat
deriving DecidableEq, Repr

/-- A run that submitted `n` deletions: all tasks waiting, 50 free permits,
nothing in flight. -/
def initialSched (n : Nat) : SchedState := ⟨n, 50, 0, 0⟩

/-- The asyncio.Semaphore discipline of the `async with semaphore` block
(api.py line 48): a task enters the delete region only by decrementing a
positive permit count (`acquire` suspends otherwise), and leaving the region
returns the permit whatever the outcome of the body. -/
inductive SchedStep : SchedState → SchedState → Prop
  | acquire (s : SchedState) (hw : 0 < s.waiting) (hv : 0 < s.value) :
      SchedStep s ⟨s.waiting - 1, s.value - 1, s.inFlight + 1, s.finished⟩
  | release (s : SchedState) (hf : 0 < s.inFlight) :
      SchedStep s ⟨s.waiting, s.value + 1, s.inFlight - 1, s.finished + 1⟩

/-- The states a run with `n` submitted deletions can reach. -/
def SchedReachable (n : Nat) (s : SchedState) : Prop :=
  Relation.ReflTransGen SchedStep (initialSched n) s

/-! ### Theorems: retention filter -/

/-- Any version the filter selects was, at its own loop iteration, in-window
(its configured timestamp is present and at most the cut-off) and passed the
tag policy with a positive deletion decision. -/
theorem mem_selectLoop (inputs : Inputs) :
    ∀ (idx : Nat) (vs : List PackageVersion) (v : PackageVersion),
      v ∈ selectLoop inputs idx vs →
      (∃ ts, getTimestamp inputs v = some ts ∧ ts ≤ inputs.cut_off) ∧
        tagPolicy inputs v.tags = .counted true := by
  intro idx vs
  induction vs generalizing idx with
  | nil => intro v h; simp [selectLoop] at h
  | cons w rest ih =>
    intro v h
    simp only [selectLoop] at h
    split at h
    · exact ih idx v h
    · split at h
      · exact ih idx v h
      · rename_i ts hts
        split at h
        · exact ih idx v h
        · rename_i hcut
          split at h
          · exact ih idx v h
          · rename_i d hpol
            split at h
            · rename_i hd
              rcases List.mem_cons.mp h with rfl | h2
              · exact ⟨⟨ts, hts, by omega⟩, by rw [hpol, hd]⟩
              · exact ih (idx + 1) v h2
            · exact ih (idx + 1) v h

/-- Retention inputs with `keep_at_least = 1`, cut-off 100 and no tag rules. -/
def kalInputs : Inputs :=
  { cut_off := 100, timestamp_to_use := .created_at, untagged_only := false,
    skip_tags := [], keep_at_least := 1, filter_tags := [],
    filter_include_untagged := true }

/-- A classifiable, tagged version older than the cut-off. -/
def kalVersion (i : Nat) : PackageVersion :=
  { id := i, name := "sha", tags := ["latest"], created_at := some 50,
    updated_at := none }

/-- C1: the spec claims that with `keep_at_least = N > 0` the filter never
selects any of the first `N` classifiable versions.  Evaluating the embedded
code with `keep_at_least = 1` on a single classifiable, in-window, tagged
version shows the very first classifiable version IS selected: the chained
comparison at main.py line 41 (`0 < inputs.keep_at_least == index`) only
skips once `index` has already reached `keep_at_least`, so the code fully
evaluates (and here deletes) the first `keep_at_least` counted versions and
instead retains everything after them — the opposite of the comment above it
("Skip deleting initial package versions"). -/
theorem keep_at_least_selects_first_version :
    select_package_versions_to_delete kalInputs [kalVersion 1] = [kalVersion 1] := by
  decide

/-- C2: the spec scenario — three classifiable, tagged versions older than
the cut-off, `keep_at_least = 1`, no tag filters — is claimed to schedule
exactly 2 deletions.  The embedded code schedules exactly 1: only the first
version is selected, and every version after the first counted one is
skipped by the line-41 chained comparison. -/
theorem keep_at_least_three_versions_schedules_one :
    select_package_versions_to_delete kalInputs
        [kalVersion 1, kalVersion 2, kalVersion 3] = [kalVersion 1] ∧
      (select_package_versions_to_delete kalInputs
        [kalVersion 1, kalVersion 2, kalVersion 3]).length = 1 := by
  constructor
  · decide
  · decide

/-- C3: a version whose configured timestamp field is present and strictly
greater than the cut-off is never selected for deletion (main.py line 51
skips it before any deletion decision, and no other path selects it). -/
theorem recent_version_never_selected (inputs : Inputs)
    (versions : List PackageVersion) (v : PackageVersion) (ts : Int)
    (hts : getTimestamp inputs v = some ts) (hrecent : inputs.cut_off < ts) :
    v ∉ select_package_versions_to_delete inputs versions := by
  intro hmem
  obtain ⟨⟨ts2, hts2, hle⟩, -⟩ := mem_selectLoop inputs 0 versions v hmem
  rw [hts] at hts2
  injection hts2 with h2
  omega

/-- A classifiable version strictly newer than the cut-off of `kalInputs`. -/
def recentVersion : PackageVersion :=
  { id := 9, name := "sha", tags := ["latest"], created_at := some 150,
    updated_at := none }

/-- Witness for C3 at a concrete input: a version with timestamp 150 against
cut-off 100 is not selected. -/
theorem recent_version_never_selected_witness :
    recentVersion ∉
      select_package_versions_to_delete kalInputs [recentVersion, kalVersion 1] :=
  recent_version_never_selected kalInputs [recentVersion, kalVersion 1]
    recentVersion 150 (by decide) (by decide)

/-- C4: the tag policy of the retention filter.  Every selected version
passed the policy positively, and the positive policy decision is exactly:
not (untagged_only with a non-empty tag set), not (empty tag set with
filter_include_untagged off), and (filter_tags empty, or some tag
glob-matches some filter pattern), and no tag glob-matches any skip pattern
— the skip match overriding any filter match. -/
theorem tag_policy_characterisation (inputs : Inputs)
    (versions : List PackageVersion) (v : PackageVersion) (tags : List String) :
    (v ∈ select_package_versions_to_delete inputs versions →
        tagPolicy inputs v.tags = .counted true)
    ∧ (tagPolicy inputs tags = .counted true ↔
        (¬(inputs.untagged_only = true ∧ tags ≠ [])
          ∧ ¬(tags = [] ∧ inputs.filter_include_untagged = false)
          ∧ (inputs.filter_tags = [] ∨
              ∃ pat ∈ inputs.filter_tags, ∃ tag ∈ tags, fnmatch tag pat = true)
          ∧ ¬∃ pat ∈ inputs.skip_tags, ∃ tag ∈ tags, fnmatch tag pat = true)) := by
  constructor
  · exact fun h => (mem_selectLoop inputs 0 versions v h).2
  · have hiff : tagPolicy inputs tags = .counted true ↔
        ((inputs.untagged_only && !tags.isEmpty) = false ∧
          (tags.isEmpty && !inputs.filter_include_untagged) = false ∧
          skipTagsMatch inputs tags = false ∧
          filterTagsAllow inputs tags = true) := by
      unfold tagPolicy
      split_ifs with h1 h2 h3 <;> simp_all
    have hA : (inputs.untagged_only && !tags.isEmpty) = false ↔
        ¬(inputs.untagged_only = true ∧ tags ≠ []) := by
      cases inputs.untagged_only <;> cases tags <;> simp
    have hB : (tags.isEmpty && !inputs.filter_include_untagged) = false ↔
        ¬(tags = [] ∧ inputs.filter_include_untagged = false) := by
      cases inputs.filter_include_untagged <;> cases tags <;> simp
    have hSkip : skipTagsMatch inputs tags = false ↔
        ¬∃ pat ∈ inputs.skip_tags, ∃ tag ∈ tags, fnmatch tag pat = true := by
      rw [← Bool.not_eq_true]
      unfold skipTagsMatch
      simp [List.any_eq_true]
    have hAllow : filterTagsAllow inputs tags = true ↔
        (inputs.filter_tags = [] ∨
          ∃ pat ∈ inputs.filter_tags, ∃ tag ∈ tags, fnmatch tag pat = true) := by
      unfold filterTagsAllow
      simp [List.any_eq_true, List.isEmpty_iff]
    rw [hiff, hA, hB, hSkip, hAllow]
    constructor <;> rintro ⟨a, b, c, d⟩ <;> exact ⟨a, b, d, c⟩

/-- Witness for C4 at a concrete input: the version selected out of
`[kalVersion 1]` indeed carries a positive tag-policy decision. -/
theorem tag_policy_characterisation_witness :
    tagPolicy kalInputs (kalVersion 1).tags = .counted true :=
  (tag_policy_characterisation kalInputs [kalVersion 1] (kalVersion 1) []).1
    (by decide)

/-! ### Theorems: rate limiter and deletion outcomes -/

/-- C5: with `x-ratelimit-remaining = 0` and `delta = reset - now`, the rate
limiter terminates the process with exit code 1 when `delta` exceeds
`MAX_SLEEP` (600 s), suspends the calling task for exactly `delta` seconds
when `0 < delta ≤ MAX_SLEEP`, and returns immediately when `delta ≤ 0`. -/
theorem rate_limit_zero_remaining (ratelimit_reset now : ℚ) (eligible : Bool) :
    (ratelimit_reset - now > MAX_SLEEP →
        wait_for_rate_limit 0 ratelimit_reset now eligible = .terminate 1)
    ∧ (0 < ratelimit_reset - now → ratelimit_reset - now ≤ MAX_SLEEP →
        wait_for_rate_limit 0 ratelimit_reset now eligible =
          .sleepFor (ratelimit_reset - now))
    ∧ (ratelimit_reset - now ≤ 0 →
        wait_for_rate_limit 0 ratelimit_reset now eligible = .proceed) := by
  unfold wait_for_rate_limit
  refine ⟨fun h => ?_, fun h1 h2 => ?_, fun h => ?_⟩
  · rw [if_pos rfl, if_pos h]
  · rw [if_pos rfl, if_neg (by linarith), if_pos h1]
  · rw [if_pos rfl, if_neg (by unfold MAX_SLEEP; linarith), if_neg (by linarith)]

/-- Witness for C5: a reset 700 s in the future terminates with exit code 1;
one 30 s in the future sleeps 30 s; one already past proceeds. -/
theorem rate_limit_zero_remaining_witness :
    wait_for_rate_limit 0 700 0 false = .terminate 1 ∧
      wait_for_rate_limit 0 30 0 false = .sleepFor 30 ∧
      wait_for_rate_limit 0 0 5 false = .proceed :=
  ⟨(rate_limit_zero_remaining 700 0 false).1 (by norm_num [MAX_SLEEP]),
    by
      have h := (rate_limit_zero_remaining 30 0 false).2.1 (by norm_num)
        (by norm_num [MAX_SLEEP])
      simpa using h,
    (rate_limit_zero_remaining 0 5 false).2.2 (by norm_num)⟩

/-- C6: outcome classification of a delete response appends the identifier
`image_name:version_id` to exactly one run-wide list: a non-error response to
`deleted`; an error response with status 400 whose JSON message equals
`GITHUB_ASSISTANCE_MSG` to `needs_github_assistance`; any other error
response to `failed`. -/
theorem post_deletion_output_classification (st : DeletionState) (status : Nat)
    (message image_name : String) (version_id : Nat) :
    (isErrorStatus status = false →
        post_deletion_output st status message image_name version_id =
          { st with deleted :=
              st.deleted ++ [image_name ++ ":" ++ toString version_id] })
    ∧ (status = 400 → message = GITHUB_ASSISTANCE_MSG →
        post_deletion_output st status message image_name version_id =
          { st with needs_github_assistance :=
              st.needs_github_assistance ++
                [image_name ++ ":" ++ toString version_id] })
    ∧ (isErrorStatus status = true →
        ¬(status = 400 ∧ message = GITHUB_ASSISTANCE_MSG) →
        post_deletion_output st status message image_name version_id =
          { st with failed :=
              st.failed ++ [image_name ++ ":" ++ toString version_id] }) := by
  refine ⟨fun he => ?_, fun h4 hm => ?_, fun he hnot => ?_⟩
  · unfold post_deletion_output
    rw [he]
    simp
  · subst h4
    subst hm
    unfold post_deletion_output isErrorStatus
    norm_num
  · unfold post_deletion_output
    rw [he]
    have hcond : (status == 400 && message == GITHUB_ASSISTANCE_MSG) = false := by
      rw [Bool.and_eq_false_iff]
      by_cases h4 : status = 400
      · right
        rw [beq_eq_false_iff_ne]
        exact fun hm => hnot ⟨h4, hm⟩
      · left
        rw [beq_eq_false_iff_ne]
        exact h4
    rw [hcond]
    simp

/-- Witness for C6: a 204 is recorded as deleted, a 400 with the assistance
message as needing GitHub assistance, and a 403 as failed. -/
theorem post_deletion_output_classification_witness :
    post_deletion_output emptyState 204 "" "app-a" 1 =
        { emptyState with deleted := ["app-a:1"] } ∧
      post_deletion_output emptyState 400 GITHUB_ASSISTANCE_MSG "app-a" 2 =
        { emptyState with needs_github_assistance := ["app-a:2"] } ∧
      post_deletion_output emptyState 403 "Forbidden" "app-a" 3 =
        { emptyState with failed := ["app-a:3"] } :=
  ⟨(post_deletion_output_classification emptyState 204 "" "app-a" 1).1
      (by decide),
    (post_deletion_output_classification emptyState 400 GITHUB_ASSISTANCE_MSG
        "app-a" 2).2.1 rfl rfl,
    (post_deletion_output_classification emptyState 403 "Forbidden"
        "app-a" 3).2.2 (by decide) (by simp)⟩

/-- C7: a `TimeoutException` from the HTTP delete call is caught inside
`_delete_package_versions` (api.py lines 53-54): the coroutine returns
normally — this total function returning a value is that normal return — and
none of the three outcome lists changes; in particular the version is not
recorded as failed. -/
theorem delete_timeout_swallowed (st : DeletionState) (image_name : String)
    (version_id : Nat) :
    _delete_package_versions st .timeout image_name version_id = st := rfl

/-! ### Theorems: paginator -/

/-- A page fetch that succeeds and whose parsed link relations resolve
`next` to `nxt` (with `nxt = none` meaning no `next` relation). -/
def pageLinksTo (server : String → PageResponse) (u : String)
    (nxt : Option String) : Bool :=
  isSuccessStatus (server u).status &&
    (match (server u).linkHeader with
     | none => false
     | some h => relLookup (parseLinkRels h) "next" == nxt)

/-- A fully successful pagination chain: every listed page fetch succeeds
with a link header, consecutive pages are joined by the parsed `next`
relation, and the final page's relations lack `next`. -/
def chainOk (server : String → PageResponse) : List String → Bool
  | [] => true
  | [u] => pageLinksTo server u none
  | u :: u2 :: rest => pageLinksTo server u (some u2) && chainOk server (u2 :: rest)

/-- A pagination chain whose pages succeed and link onwards until the final
listed page, whose fetch returns a non-success status. -/
def chainFails (server : String → PageResponse) : List String → Bool
  | [] => false
  | [u] => !isSuccessStatus (server u).status
  | u :: u2 :: rest => pageLinksTo server u (some u2) && chainFails server (u2 :: rest)

theorem get_all_pages_succ (server : String → PageResponse) (fuel : Nat)
    (url : String) :
    get_all_pages server (fuel + 1) url =
      (let response := server url
       if !isSuccessStatus response.status then ([], .httpError response.status)
       else
         match response.linkHeader with
         | none => (response.items, .keyError)
         | some h =>
           match relLookup (parseLinkRels h) "next" with
           | none => (response.items, .done)
           | some nextUrl =>
             let p := get_all_pages server fuel nextUrl
             (response.items ++ p.1, p.2)) := rfl

theorem get_all_pages_last (server : String → PageResponse) (u : String)
    (fuel : Nat) (h : pageLinksTo server u none = true) :
    get_all_pages server (fuel + 1) u = ((server u).items, .done) := by
  unfold pageLinksTo at h
  rw [Bool.and_eq_true] at h
  obtain ⟨hs, hl⟩ := h
  cases hh : (server u).linkHeader with
  | none => rw [hh] at hl; simp at hl
  | some hdr =>
    rw [hh] at hl
    simp only [beq_iff_eq] at hl
    rw [get_all_pages_succ]
    simp [hs, hh, hl]

theorem get_all_pages_step (server : String → PageResponse) (u u2 : String)
    (fuel : Nat) (h : pageLinksTo server u (some u2) = true) :
    get_all_pages server (fuel + 1) u =
      ((server u).items ++ (get_all_pages server fuel u2).1,
        (get_all_pages server fuel u2).2) := by
  unfold pageLinksTo at h
  rw [Bool.and_eq_true] at h
  obtain ⟨hs, hl⟩ := h
  cases hh : (server u).linkHeader with
  | none => rw [hh] at hl; simp at hl
  | some hdr =>
    rw [hh] at hl
    simp only [beq_iff_eq] at hl
    rw [get_all_pages_succ]
    simp [hs, hh, hl]

theorem get_all_pages_fail (server : String → PageResponse) (u : String)
    (fuel : Nat) (h : isSuccessStatus (server u).status = false) :
    get_all_pages server (fuel + 1) u = ([], .httpError (server u).status) := by
  rw [get_all_pages_succ]
  simp [h]

/-- C8: the paginator yields every item of every page reachable along the
parsed `rel="next"` chain, in page order, and finishes normally at the first
page whose parsed link relations lack `next` (even if that page carries no
items); and when a page fetch along such a chain returns a non-success
status, `raise_for_status` raises the HTTP error to the caller after the
items of the earlier pages, suppressing nothing. -/
theorem paginator_follows_next_chain (server : String → PageResponse)
    (u : String) (us : List String) (fuel : Nat) :
    (chainOk server (u :: us) = true → us.length < fuel →
        get_all_pages server fuel u =
          (((u :: us).map fun x => (server x).items).flatten, .done))
    ∧ (chainFails server (u :: us) = true → us.length < fuel →
        get_all_pages server fuel u =
          (((u :: us).dropLast.map fun x => (server x).items).flatten,
            .httpError (server ((u :: us).getLast (List.cons_ne_nil u us))).status)) := by
  induction us generalizing u fuel with
  | nil =>
    constructor
    · intro hc hf
      obtain ⟨f, rfl⟩ : ∃ f, fuel = f + 1 := ⟨fuel - 1, by omega⟩
      rw [get_all_pages_last server u f hc]
      simp
    · intro hc hf
      obtain ⟨f, rfl⟩ : ∃ f, fuel = f + 1 := ⟨fuel - 1, by omega⟩
      unfold chainFails at hc
      rw [Bool.not_eq_true'] at hc
      rw [get_all_pages_fail server u f hc]
      simp
  | cons u2 us2 ih =>
    constructor
    · intro hc hf
      obtain ⟨f, rfl⟩ : ∃ f, fuel = f + 1 := ⟨fuel - 1, by omega⟩
      unfold chainOk at hc
      rw [Bool.and_eq_true] at hc
      obtain ⟨hlink, hrest⟩ := hc
      rw [get_all_pages_step server u u2 f hlink,
        (ih u2 f).1 hrest (by simpa using Nat.lt_of_succ_lt_succ hf)]
      simp
    · intro hc hf
      obtain ⟨f, rfl⟩ : ∃ f, fuel = f + 1 := ⟨fuel - 1, by omega⟩
      unfold chainFails at hc
      rw [Bool.and_eq_true] at hc
      obtain ⟨hlink, hrest⟩ := hc
      rw [get_all_pages_step server u u2 f hlink,
        (ih u2 f).2 hrest (by simpa using Nat.lt_of_succ_lt_succ hf)]
      simp [List.getLast_cons]

/-- A three-page demo server: page1 links to page2, page2 links to page3
(and back), page3 carries zero items and no `next` relation. -/
def demoServer : String → PageResponse := fun url =>
  if url = "page1" then ⟨200, [1, 2], some "<page2>; rel=\"next\""⟩
  else if url = "page2" then ⟨200, [3], some "<page1>; rel=\"prev\", <page3>; rel=\"next\""⟩
  else if url = "page3" then ⟨200, [], some "<page2>; rel=\"prev\""⟩
  else ⟨500, [], none⟩

/-- Witness for C8: the demo chain yields the items of all three pages, in
order, and terminates normally on the empty final page. -/
theorem paginator_follows_next_chain_witness :
    get_all_pages demoServer 3 "page1" = ([1, 2, 3], .done) :=
  (paginator_follows_next_chain demoServer "page1" ["page2", "page3"] 3).1
    (by decide) (by decide)

/-- C10: after yielding a page's items the generator unconditionally indexes
`response.headers[\x27link\x27]` (utils.py line 59), so a successful response with
no link header at all ends the traversal in a `KeyError` right after that
page's items — never in a clean `return`. -/
theorem paginator_missing_link_header_keyerror (server : String → PageResponse)
    (u : String) (fuel : Nat)
    (hs : isSuccessStatus (server u).status = true)
    (hh : (server u).linkHeader = none) :
    get_all_pages server (fuel + 1) u = ((server u).items, .keyError) ∧
      ∀ items, get_all_pages server (fuel + 1) u ≠ (items, .done) := by
  have hmain : get_all_pages server (fuel + 1) u = ((server u).items, .keyError) := by
    rw [get_all_pages_succ]
    simp [hs, hh]
  refine ⟨hmain, fun items hcontra => ?_⟩
  rw [hmain] at hcontra
  simp at hcontra

/-- A server answering every URL with a successful single page carrying no
link header. -/
def bareServer : String → PageResponse := fun _ => ⟨200, [7], none⟩

/-- Witness for C10: the single-page fetch yields its items and then raises
`KeyError` instead of returning cleanly. -/
theorem paginator_missing_link_header_keyerror_witness :
    get_all_pages bareServer 1 "start" = ([7], .keyError) ∧
      ∀ items, get_all_pages bareServer 1 "start" ≠ (items, .done) :=
  paginator_missing_link_header_keyerror bareServer "start" 0 (by decide) rfl

/-! ### Theorems: deletion concurrency -/

/-- C9: free permits plus in-flight tasks is conserved at 50, so no
reachable state of a run — whatever the number of submitted deletions — has
more than 50 delete calls inside the semaphore region at once. -/
theorem semaphore_bounds_inflight (n : Nat) (s : SchedState)
    (h : SchedReachable n s) : s.inFlight ≤ 50 := by
  have key : ∀ t : SchedState, SchedReachable n t → t.value + t.inFlight = 50 := by
    intro t ht
    induction ht with
    | refl => rfl
    | tail hab hbc ih =>
      cases hbc with
      | acquire hw hv => dsimp only; omega
      | release hf => dsimp only; omega
  have hs := key s h
  omega

/-- Witness for C9: after submitting 120 deletions and one task acquiring a
permit, the in-flight count is within the bound. -/
theorem semaphore_bounds_inflight_witness :
    (⟨119, 49, 1, 0⟩ : SchedState).inFlight ≤ 50 :=
  semaphore_bounds_inflight 120 ⟨119, 49, 1, 0⟩
    (Relation.ReflTransGen.single
      (SchedStep.acquire (initialSched 120) (by decide) (by decide)))

end CRP
